import Mathlib

/-!
Verification development for the segmented download engine
(PyGeneralGeekDownloader).  The definitions below are a shallow embedding of
the Python sources `calc.py`, `fetch.py`, `getsize.py` and `app.py`: header
values and paths are `List Char`, Python `int` values are `Nat`/`Int`, file
system and network effects are made explicit parameters, and fallible code
returns `Option`/`Except`.
-/

namespace PyDownloader

/- ## Python string helpers

`splitOnChar` embeds Python `str.split(sep)` for a one-character separator:
`"a/b".split("/") == ["a", "b"]`, `"".split("/") == [""]`,
`"/".split("/") == ["", ""]`. -/
def splitOnChar (sep : Char) : List Char → List (List Char)
  | [] => [[]]
  | c :: rest =>
    let r := splitOnChar sep rest
    if c = sep then [] :: r
    else
      match r with
      | [] => [[c]]
      | g :: gs => (c :: g) :: gs

/-- Embeds Python `int(s)` on an all-digit string: `some` of the decimal
value when `s` is non-empty and all digits, else `none` (a `ValueError`). -/
def parseNatDigits (s : List Char) : Option Nat :=
  if s ≠ [] ∧ s.all Char.isDigit then
    some (s.foldl (fun acc c => acc * 10 + (c.toNat - 48)) 0)
  else none

/-- Embeds Python `int(s)` including an optional sign prefix
(whitespace-stripping and underscore forms are not needed by any caller). -/
def pyInt (s : List Char) : Option Int :=
  match s with
  | '-' :: rest => (parseNatDigits rest).map (fun n => -(n : Int))
  | '+' :: rest => (parseNatDigits rest).map (fun n => (n : Int))
  | _ => (parseNatDigits s).map (fun n => (n : Int))

/- ## Segment planner — `src/calc.py`, `CalcSegments.get_segment` -/

/-- Embeds the Python statement `segments[-1][-1] = max_size - 1` of
`calc.py` line 43: replace the end of the last `[start, end]` pair. -/
def setLastEnd : List (Nat × Nat) → Nat → List (Nat × Nat)
  | [], _ => []
  | [(a, _)], e => [(a, e)]
  | p :: q :: rest, e => p :: setLastEnd (q :: rest) e

/-- Embeds `CalcSegments.get_segment(max_size, segments_amount)`
(`calc.py` lines 26–45).  `none` stands for the raised exception
(`ValueError` on `max_size <= 0`; `ZeroDivisionError` on a zero segment
count).  `min` embeds lines 30–33, `standard_size` is
`max_size // segments_amount` (line 36), and
`(List.range ((max_size + standard_size - 1) / standard_size)).map (· * standard_size)`
is exactly Python `list(range(0, max_size, standard_size))` (line 37): the
multiples of `standard_size` below `max_size`, of which there are
`⌈max_size / standard_size⌉`.  Line 40 builds the `[x, x + standard_size - 1]`
pairs and line 43 patches the last end to `max_size - 1`. -/
def get_segment (max_size segments_amount : Nat) : Option (List (Nat × Nat)) :=
  if max_size = 0 ∨ segments_amount = 0 then none
  else
    let amount := min segments_amount max_size
    let standard_size := max_size / amount
    let l1_segments := (List.range ((max_size + standard_size - 1) / standard_size)).map
      (fun k => k * standard_size)
    let segments := l1_segments.map (fun x => (x, x + standard_size - 1))
    some (setLastEnd segments (max_size - 1))

/-- `coversFrom lo hi segs = true` iff the inclusive ranges in `segs`, taken
in order, tile the half-open interval `[lo, hi)` exactly: the first range
starts at `lo`, each range is non-empty, consecutive ranges are adjacent
(no gap, no overlap), and the last range ends at `hi - 1`. -/
def coversFrom : Nat → Nat → List (Nat × Nat) → Bool
  | lo, hi, [] => lo == hi
  | lo, hi, (a, b) :: rest => a == lo && lo ≤ b && coversFrom (b + 1) hi rest

/- ## Metadata probe — `src/getsize.py`, `FileInfoManager` -/

/-- The response headers consulted by `getsize.py`: each field is `some`
value when the header is present. -/
structure Headers where
  accept_ranges : Option (List Char)
  content_range : Option (List Char)
  content_length : Option (List Char)
deriving DecidableEq

/-- Embeds the `Content-Length` branch of `_extract_file_size`
(`getsize.py` lines 96–100): `int(headers["Content-Length"])` when present,
else `None`; a parse failure is caught by the enclosing `except`. -/
def contentLengthSize (h : Headers) : Option Int :=
  match h.content_length with
  | some cl => pyInt cl
  | none => none

/-- Embeds `FileInfoManager._extract_file_size` (`getsize.py` lines 83–103):
`Content-Range` is tried FIRST — `int(cr.split("/")[-1])`, falling back to
`int(cr.split("-")[-1])` — and only then `Content-Length`. -/
def extract_file_size (h : Headers) : Option Int :=
  match h.content_range with
  | some cr =>
    match pyInt ((splitOnChar '/' cr).getLastD []) with
    | some z => some z
    | none =>
      match pyInt ((splitOnChar '-' cr).getLastD []) with
      | some y => some y
      | none => contentLengthSize h
  | none => contentLengthSize h

/-- Embeds the `supports_range` field built at `getsize.py` line 56:
`"Accept-Ranges" in response.headers or "Content-Range" in response.headers`
— a pure presence test on both headers. -/
def supports_range (h : Headers) : Bool :=
  h.accept_ranges.isSome || h.content_range.isSome

/-- Modelled from the spec: `supports_range := (Accept-Ranges header present
and not "none") OR (Content-Range header present)` (spec §4.1 step 5).  This
is the specification-side definition, to be compared with the code-side
`supports_range` above. -/
def spec_supports_range (h : Headers) : Bool :=
  (match h.accept_ranges with
   | some v => decide (v ≠ ("none".toList))
   | none => false) || h.content_range.isSome

/- ## Coordinator segment-count choice — `src/app.py` lines 63–66 -/

/-- Embeds `app.py` lines 63–66: `segments_count = segments or
config["segments_amount"]` (Python `or` treats `None` and `0` as falsy),
then forced to `1` when the probe reported no range support. -/
def choose_segments_count (segments : Option Nat) (config_segments_amount : Nat)
    (supports : Bool) : Nat :=
  let segments_count :=
    match segments with
    | some s => if s = 0 then config_segments_amount else s
    | none => config_segments_amount
  if supports = false then 1 else segments_count

/- ## Segment fetcher — `src/fetch.py`, `DownloadSegment.download_segment_async` -/

/-- An HTTP response to a range request: status code and body bytes. -/
structure HttpResponse where
  status : Nat
  body : List Nat
deriving DecidableEq

/-- Embeds `fetch.py` lines 59–64: the requested start offset after the
resume adjustment `if resume_offset > 0 and resume_offset < (end_byte -
start_byte + 1): start_byte = start_byte + resume_offset`. -/
def adjusted_start (byte_range : Nat × Nat) (resume_offset : Nat) : Nat :=
  let s := byte_range.1
  let e := byte_range.2
  if 0 < resume_offset ∧ resume_offset < e - s + 1 then s + resume_offset else s

/-- Embeds one attempt of `download_segment_async` (`fetch.py` lines
71–87): any status other than 200 or 206 raises (a failed attempt, `none`);
otherwise the entire body is read and written at offset `start_byte`
(`file.seek(start_byte); file.write(segment_data)`), with no check of the
body length against the requested range.  The successful result records the
write: `(start offset, bytes written)`. -/
def attempt (byte_range : Nat × Nat) (resume_offset : Nat)
    (resp : HttpResponse) : Option (Nat × List Nat) :=
  let start_byte := adjusted_start byte_range resume_offset
  if resp.status = 200 ∨ resp.status = 206 then some (start_byte, resp.body)
  else none

/-- `writesAt w o = true` iff the write `w = (start, body)` touches file
offset `o`: the body occupies offsets `[start, start + body.length)`. -/
def writesAt (w : Nat × List Nat) (o : Nat) : Bool :=
  w.1 ≤ o && o < w.1 + w.2.length

/- ## Coordinator resume check and file setup — `src/fetch.py` lines 159–213 -/

/-- The fields read out of a parsed state file (`fetch.py` lines 166–169);
`Option` on `uri` and `total_size` embeds `dict.get` returning `None` for a
missing key.  Progress keys are segment ids (Python stores them as
stringified ints). -/
structure StateData where
  uri : Option (List Char)
  total_size : Option Nat
  completed_segments : List Nat
  segment_progress : List (Nat × Nat)
deriving DecidableEq

/-- Outcome of the resume check at the top of `download_file_async`. -/
inductive ResumeAction where
  /-- lines 166–171: restore `completed_segments` and `segment_progress`. -/
  | restore (completed : List Nat) (progress : List (Nat × Nat))
  /-- lines 172–184: unlink both the output file and the state file. -/
  | deleteBoth
  /-- the `if` at line 160 not taken: nothing is read and nothing deleted. -/
  | skip
deriving DecidableEq

/-- Embeds `fetch.py` lines 159–184.  `readResult = none` embeds an
exception while reading or parsing the state file (the `except` arm, lines
179–184, which also deletes both files). -/
def resume_decision (resume outputExists stateExists : Bool)
    (readResult : Option StateData) (uri : List Char) (total_size : Nat) :
    ResumeAction :=
  if resume && outputExists && stateExists then
    match readResult with
    | none => ResumeAction.deleteBoth
    | some st =>
      if st.uri = some uri ∧ st.total_size = some total_size then
        ResumeAction.restore st.completed_segments st.segment_progress
      else ResumeAction.deleteBoth
  else ResumeAction.skip

/-- What happens to the output file during setup. -/
inductive SetupAction where
  /-- lines 191–211: the file did not exist and is created pre-allocated to
  the given length (sparse write at `total_size - 1`, or the
  `truncate(total_size)` fallback — either way, length `total_size`). -/
  | created (length : Nat)
  /-- the file existed and lines 191–211 do nothing: kept untouched at its
  old length. -/
  | kept (oldLength : Nat)
deriving DecidableEq

/-- Embeds the output-file handling of `download_file_async`
(`fetch.py` lines 159–213): the resume check may unlink the output file,
after which `if not file_path.exists()` (line 191) decides between creating
a pre-allocated file of `total_size` bytes and leaving the existing file
untouched. -/
def setup_file (resume outputExists stateExists : Bool)
    (readResult : Option StateData) (uri : List Char)
    (oldLength total_size : Nat) : SetupAction :=
  let act := resume_decision resume outputExists stateExists readResult uri total_size
  if act = ResumeAction.deleteBoth then SetupAction.created total_size
  else if outputExists then SetupAction.kept oldLength
  else SetupAction.created total_size

/-- Embeds `int(segment_progress.get(str(i), 0))` (`fetch.py` line 252). -/
def resume_offset_for (progress : List (Nat × Nat)) (i : Nat) : Nat :=
  match progress.lookup i with
  | some v => v
  | none => 0

/-- Embeds the task-creation loop (`fetch.py` lines 246–257): one fetch
task `(id, byte_range, resume_offset)` per segment whose id is not in
`completed_segments`. -/
def plan_tasks (segments : List (Nat × Nat)) (completed : List Nat)
    (progress : List (Nat × Nat)) : List (Nat × (Nat × Nat) × Nat) :=
  (segments.enum.filter (fun p => !completed.contains p.1)).map
    (fun p => (p.1, p.2, resume_offset_for progress p.1))

/- ## Coordinator completion tracking — `src/fetch.py` lines 260–274 / 348–361 -/

/-- The coordinator's in-memory download state: the `completed_segments`
set and the `segment_progress` map (keys are segment ids). -/
structure RunState where
  completed_segments : Finset Nat
  segment_progress : List (Nat × Nat)
deriving DecidableEq

/-- Embeds the success branch of the completion callback (`fetch.py` lines
263–268 and 351–355): `completed_segments.add(segment_id)` and
`del segment_progress[str(segment_id)]` when present. -/
def on_success (segment_id : Nat) (st : RunState) : RunState :=
  ⟨insert segment_id st.completed_segments,
   st.segment_progress.filter (fun p => p.1 != segment_id)⟩

/-- A fetcher outcome delivered to the completion callback. -/
inductive FetchEvent where
  | success (segment_id : Nat)
  /-- `future.result()` raised: the `except Exception: pass` arm
  (`fetch.py` lines 269–270, 356–357) leaves the state unchanged. -/
  | failure (segment_id : Nat)
deriving DecidableEq

/-- One callback invocation. -/
def apply_event (st : RunState) : FetchEvent → RunState
  | FetchEvent.success i => on_success i st
  | FetchEvent.failure _ => st

/-- A download run: the callbacks fire in some order. -/
def run_events (st : RunState) (evs : List FetchEvent) : RunState :=
  evs.foldl apply_event st

/-- The ids holding partial progress. -/
def progressKeys (st : RunState) : List Nat :=
  st.segment_progress.map Prod.fst

/-- The spec's `DownloadState` invariant: no id is both completed and in
the progress map. -/
def disjointInv (st : RunState) : Prop :=
  ∀ i ∈ st.completed_segments, i ∉ progressKeys st

instance (st : RunState) : Decidable (disjointInv st) := by
  unfold disjointInv; infer_instance

/- ## Coordinator finalization — `src/fetch.py` lines 296–317 / 379–390 -/

/-- The value a download run ends with. -/
inductive DlResult where
  /-- the function returned the output path. -/
  | ok (path : List Char)
  /-- a `DownloadError` carrying the number of unfinished segments. -/
  | incomplete (remaining : Nat)
deriving DecidableEq

/-- What finalization did to the two on-disk artifacts and what it
returned. -/
structure FinalizeOutcome where
  stateFileRemoved : Bool
  outputFileRemoved : Bool
  result : DlResult
deriving DecidableEq

/-- Embeds the end of `download_file_async` / `_download_without_progress`
(`fetch.py` lines 296–317 and 379–390): after the final checkpoint, the
state file is unlinked exactly when every segment completed; otherwise only
a warning is logged.  The output file is never removed here, and the
function returns `str(file_path)` on BOTH paths — no exception is raised
for an incomplete download. -/
def finalize (total_segments : Nat) (completed : Finset Nat)
    (file_path : List Char) : FinalizeOutcome :=
  if completed.card = total_segments then
    ⟨true, false, DlResult.ok file_path⟩
  else
    ⟨false, false, DlResult.ok file_path⟩

/- ## State store — `src/fetch.py`, `DownloadManager._save_state` -/

/-- The record serialized by `_save_state` (`fetch.py` lines 394–400). -/
structure StateRecord where
  uri : List Char
  total_size : Nat
  completed_segments : Finset Nat
  segment_progress : List (Nat × Nat)
  timestamp : Nat
deriving DecidableEq

/-- Embeds `DownloadManager._save_state` (`fetch.py` lines 392–406): build
the record, attempt the file write (`write`, the effect parameter), and
catch any exception, turning it into a logged warning.  Returns the value
propagated to the caller (always `Except.ok ()`) together with the logged
warning, if any. -/
def save_state (uri : List Char) (total_size : Nat) (st : RunState)
    (now : Nat) (write : StateRecord → Except (List Char) Unit) :
    Except (List Char) Unit × Option (List Char) :=
  let record : StateRecord :=
    ⟨uri, total_size, st.completed_segments, st.segment_progress, now⟩
  match write record with
  | Except.ok _ => (Except.ok (), none)
  | Except.error e => (Except.ok (), some e)

/- ## Helper lemmas for the segment planner -/

theorem setLastEnd_append (xs : List (Nat × Nat)) (a b e : Nat) :
    setLastEnd (xs ++ [(a, b)]) e = xs ++ [(a, e)] := by
  induction xs with
  | nil => rfl
  | cons p xs ih =>
    cases xs with
    | nil => rfl
    | cons q rest =>
      show p :: setLastEnd ((q :: rest) ++ [(a, b)]) e = p :: ((q :: rest) ++ [(a, e)])
      rw [ih]

theorem coversFrom_append (xs ys : List (Nat × Nat)) (lo mid hi : Nat)
    (hx : coversFrom lo mid xs = true) (hy : coversFrom mid hi ys = true) :
    coversFrom lo hi (xs ++ ys) = true := by
  induction xs generalizing lo with
  | nil =>
    simp only [coversFrom, beq_iff_eq] at hx
    subst hx
    simpa using hy
  | cons p xs ih =>
    obtain ⟨a, b⟩ := p
    simp only [List.cons_append, coversFrom, Bool.and_eq_true, beq_iff_eq,
      decide_eq_true_eq] at hx ⊢
    exact ⟨hx.1, ih _ hx.2⟩

theorem coversFrom_multiples (w : Nat) (hw : 0 < w) (c : Nat) :
    coversFrom 0 (c * w)
      (((List.range c).map (fun k => k * w)).map (fun x => (x, x + w - 1)))
      = true := by
  induction c with
  | zero => simp [coversFrom]
  | succ c ih =>
    rw [List.range_succ]
    simp only [List.map_append, List.map_cons, List.map_nil]
    apply coversFrom_append _ _ 0 (c * w) _ ih
    have hsucc : (c + 1) * w = c * w + w := Nat.succ_mul c w
    rw [hsucc]
    have h1 : c * w + w - 1 + 1 = c * w + w := by omega
    have h2 : c * w ≤ c * w + w - 1 := by omega
    simp [coversFrom, h1, h2]

theorem ceil_div_bounds (size w : Nat) (hw : 0 < w) (hs : 0 < size) :
    0 < (size + w - 1) / w ∧ size ≤ ((size + w - 1) / w) * w ∧
      (((size + w - 1) / w) - 1) * w < size := by
  obtain ⟨c, hc⟩ : ∃ c, (size + w - 1) / w = c := ⟨_, rfl⟩
  obtain ⟨r, hr⟩ : ∃ r, (size + w - 1) % w = r := ⟨_, rfl⟩
  have hdm := Nat.div_add_mod (size + w - 1) w
  have hmod : (size + w - 1) % w < w := Nat.mod_lt _ hw
  rw [hc, hr] at hdm
  rw [hr] at hmod
  have hpos : 0 < c := by
    rw [← hc]; exact Nat.div_pos (by omega) hw
  rw [hc, Nat.sub_mul, Nat.one_mul, Nat.mul_comm c w]
  obtain ⟨t, ht⟩ : ∃ t, w * c = t := ⟨_, rfl⟩
  rw [ht] at hdm ⊢
  exact ⟨hpos, by omega, by omega⟩

/- ## Helper lemmas for the completion-tracking invariant -/

theorem on_success_disjoint (i : Nat) (st : RunState) (h : disjointInv st) :
    disjointInv (on_success i st) := by
  intro j hj hmem
  simp only [on_success, progressKeys, List.mem_map, List.mem_filter,
    bne_iff_ne, ne_eq] at hmem
  obtain ⟨p, ⟨hp, hpne⟩, hpj⟩ := hmem
  rw [on_success, Finset.mem_insert] at hj
  rcases hj with rfl | hj
  · exact hpne hpj
  · exact h j hj (by simp only [progressKeys, List.mem_map]; exact ⟨p, hp, hpj⟩)

theorem apply_event_disjoint (st : RunState) (ev : FetchEvent)
    (h : disjointInv st) : disjointInv (apply_event st ev) := by
  cases ev with
  | success i => exact on_success_disjoint i st h
  | failure i => exact h

theorem run_events_disjoint (st : RunState) (evs : List FetchEvent)
    (h : disjointInv st) : disjointInv (run_events st evs) := by
  induction evs generalizing st with
  | nil => exact h
  | cons e evs ih => exact ih _ (apply_event_disjoint st e h)

/- ## Claims -/

/-- C1 (counterexample): the count clause of the claim fails on the code.
For `size = 10`, `n = 3` the planner returns FOUR ranges, not
`min 3 10 = 3`: `standard_size = 10 // 3 = 3` and
`range(0, 10, 3) = [0, 3, 6, 9]` has four elements. -/
theorem c1_count_counterexample :
    get_segment 10 3 = some [(0, 2), (3, 5), (6, 8), (9, 9)] ∧
      ([(0, 2), (3, 5), (6, 8), (9, 9)] : List (Nat × Nat)).length ≠ min 3 10 := by
  decide

/-- C1 (amended): for every `size > 0` and `n ≥ 1`,
`CalcSegments.get_segment(size, n)` returns a list of ranges that, in
ascending-start order, partition `[0, size)` with no gaps and no overlaps;
the number of ranges equals `⌈size / (size / min(n, size))⌉` (integer
divisions), which is at least `min(n, size)` but can exceed it. -/
theorem c1_partition (size n : Nat) (hs : 0 < size) (hn : 0 < n) :
    ∃ segs, get_segment size n = some segs ∧
      coversFrom 0 size segs = true ∧
      segs.length = (size + size / min n size - 1) / (size / min n size) ∧
      min n size ≤ segs.length := by
  have hm : 0 < min n size := Nat.lt_min.mpr ⟨hn, hs⟩
  have hmle : min n size ≤ size := Nat.min_le_right n size
  have hw : 0 < size / min n size := Nat.div_pos hmle hm
  obtain ⟨w, hwdef⟩ : ∃ w, size / min n size = w := ⟨_, rfl⟩
  rw [hwdef] at hw
  obtain ⟨c, hcdef⟩ : ∃ c, (size + w - 1) / w = c := ⟨_, rfl⟩
  obtain ⟨hc0, hcu, hcl⟩ := ceil_div_bounds size w hw hs
  rw [hcdef] at hc0 hcu hcl
  have hgs : get_segment size n =
      some (setLastEnd (((List.range c).map (fun k => k * w)).map
        (fun x => (x, x + w - 1))) (size - 1)) := by
    unfold get_segment
    rw [if_neg (by omega : ¬(size = 0 ∨ n = 0))]
    simp only [hwdef, hcdef]
  have hc1 : c = (c - 1) + 1 := by omega
  have hsplit : ((List.range c).map (fun k => k * w)).map
      (fun x => (x, x + w - 1)) =
      (((List.range (c - 1)).map (fun k => k * w)).map
        (fun x => (x, x + w - 1))) ++ [((c - 1) * w, (c - 1) * w + w - 1)] := by
    rw [hc1, List.range_succ]
    simp
  refine ⟨_, hgs, ?_, ?_, ?_⟩
  · rw [hsplit, setLastEnd_append]
    apply coversFrom_append _ _ 0 ((c - 1) * w) _
      (coversFrom_multiples w hw (c - 1))
    obtain ⟨t, ht⟩ : ∃ t, (c - 1) * w = t := ⟨_, rfl⟩
    rw [ht] at hcl ⊢
    have h1 : size - 1 + 1 = size := by omega
    have h2 : t ≤ size - 1 := by omega
    simp [coversFrom, h1, h2]
  · rw [hsplit, setLastEnd_append]
    simp only [List.length_append, List.length_map, List.length_range,
      List.length_cons, List.length_nil]
    rw [hwdef, hcdef]
    omega
  · rw [hsplit, setLastEnd_append]
    simp only [List.length_append, List.length_map, List.length_range,
      List.length_cons, List.length_nil]
    -- min n size ≤ c: from  (min n size) * w ≤ size  and  size / w ≤ c.
    have h1 : min n size * w ≤ size := by
      rw [← hwdef, Nat.mul_comm]
      exact Nat.div_mul_le_self size (min n size)
    have h2 : min n size ≤ size / w := (Nat.le_div_iff_mul_le hw).mpr h1
    have h3 : size / w ≤ (size + w - 1) / w :=
      Nat.div_le_div_right (by omega)
    rw [hcdef] at h3
    omega

/-- C1 (witness): the amended theorem evaluated at `size = 10`, `n = 3`. -/
theorem c1_partition_witness :
    ∃ segs, get_segment 10 3 = some segs ∧
      coversFrom 0 10 segs = true ∧
      segs.length = (10 + 10 / min 3 10 - 1) / (10 / min 3 10) ∧
      min 3 10 ≤ segs.length :=
  c1_partition 10 3 (by decide) (by decide)

/-- C2 (counterexample): with 2 segments of which only segment 0 completed,
finalization still returns the output path — a success value, not an
Incomplete-style error. -/
theorem c2_counterexample :
    finalize 2 {0} ['f'] = ⟨false, false, DlResult.ok ['f']⟩ ∧
      ({0} : Finset Nat).card ≠ 2 := by decide

/-- C2 (amended): for every download run in which not all segment ids end
up in the completed set, the coordinator leaves both the output file and
the state file on disk for a future resume, but it returns the output path
(a success value) rather than an Incomplete-style error, logging only a
warning. -/
theorem c2_incomplete_keeps_files (total_segments : Nat)
    (completed : Finset Nat) (file_path : List Char)
    (h : completed.card ≠ total_segments) :
    (finalize total_segments completed file_path).stateFileRemoved = false ∧
      (finalize total_segments completed file_path).outputFileRemoved = false ∧
      (finalize total_segments completed file_path).result
        = DlResult.ok file_path := by
  simp [finalize, h]

/-- C2 (witness): the amended theorem at 2 segments, 1 completed. -/
theorem c2_incomplete_keeps_files_witness :
    (finalize 2 {0} ['f']).stateFileRemoved = false ∧
      (finalize 2 {0} ['f']).outputFileRemoved = false ∧
      (finalize 2 {0} ['f']).result = DlResult.ok ['f'] :=
  c2_incomplete_keeps_files 2 {0} ['f'] (by decide)

/-- C3 (counterexample): for range `[0, 4]` and an accepted 206 response
whose body is 10 bytes, the fetcher writes the whole body at offset 0 and
thus touches offset 9, past `end_inclusive = 4`. -/
theorem c3_counterexample :
    attempt (0, 4) 0 ⟨206, List.replicate 10 0⟩
        = some (0, List.replicate 10 0) ∧
      writesAt (0, List.replicate 10 0) 9 = true ∧ ¬(9 ≤ 4) := by decide

/-- C3 (amended): a fetcher never writes at an offset below `range.start`,
and it stays within `[range.start, range.end_inclusive]` only under the
extra assumption that the accepted body is no longer than the span from
the actual write offset to the end of the range; a longer body is written
past `range.end_inclusive`. -/
theorem c3_write_bounds (byte_range : Nat × Nat) (resume_offset : Nat)
    (resp : HttpResponse) (w : Nat × List Nat) (o : Nat)
    (hatt : attempt byte_range resume_offset resp = some w)
    (ho : writesAt w o = true) :
    byte_range.1 ≤ o ∧
      (w.2.length ≤ byte_range.2 + 1 - w.1 → o ≤ byte_range.2) := by
  unfold attempt at hatt
  split at hatt
  case isFalse => exact absurd hatt (by simp)
  case isTrue hst =>
    simp only [Option.some.injEq] at hatt
    subst hatt
    have hs : byte_range.1 ≤ adjusted_start byte_range resume_offset := by
      simp only [adjusted_start]
      split <;> omega
    unfold writesAt at ho
    simp only [Bool.and_eq_true, decide_eq_true_eq] at ho
    dsimp only at ho ⊢
    obtain ⟨t, ht⟩ : ∃ t, adjusted_start byte_range resume_offset = t :=
      ⟨_, rfl⟩
    rw [ht] at hs ho ⊢
    refine ⟨by omega, fun hlen => by omega⟩

/-- C3 (witness): the amended theorem at range `[0, 4]`, a 3-byte body,
offset 2. -/
theorem c3_write_bounds_witness :
    (0 : Nat) ≤ 2 ∧ (([7, 7, 7] : List Nat).length ≤ 4 + 1 - 0 → 2 ≤ 4) :=
  c3_write_bounds (0, 4) 0 ⟨206, [7, 7, 7]⟩ (0, [7, 7, 7]) 2
    (by decide) (by decide)

/-- C4 (counterexample): an HTTP 200 response whose 10-byte body differs
from the requested range length `4 - 0 + 1 = 5` is still treated as a
successful attempt. -/
theorem c4_counterexample :
    (attempt (0, 4) 0 ⟨200, List.replicate 10 0⟩).isSome = true ∧
      (List.replicate 10 (0 : Nat)).length ≠ 4 - 0 + 1 := by decide

/-- C4 (amended): an attempt is treated as successful exactly when the
status is 200 or 206 — the body length is never compared against the
requested range length, so a 200 whose body length differs from the range
length is still a successful attempt. -/
theorem c4_status_only (byte_range : Nat × Nat) (resume_offset : Nat)
    (resp : HttpResponse) :
    (attempt byte_range resume_offset resp).isSome = true ↔
      (resp.status = 200 ∨ resp.status = 206) := by
  unfold attempt
  split <;> simp_all

/-- C4 (witness): the amended theorem applied at a 206 response. -/
theorem c4_status_only_witness :
    (attempt (0, 4) 0 ⟨206, []⟩).isSome = true :=
  (c4_status_only (0, 4) 0 ⟨206, []⟩).mpr (Or.inr rfl)

/-- C5 (counterexample): a probe response with `Accept-Ranges: none` and no
`Content-Range` yields `supports_range = true` in the code, while the
spec formula yields `false` — the header's value is never inspected. -/
theorem c5_counterexample :
    supports_range ⟨some ("none".toList), none, none⟩ = true ∧
      spec_supports_range ⟨some ("none".toList), none, none⟩ = false := by
  decide

/-- C5 (amended): `supports_range` is a pure presence test — it agrees
with the spec's formula except exactly when `Accept-Ranges` is present
with value `"none"` and `Content-Range` is absent, where the code reports
`true`; and whenever `supports_range` is `false` the coordinator plans
exactly one segment. -/
theorem c5_presence_only (h : Headers) (segments : Option Nat) (cfg : Nat) :
    (supports_range h = spec_supports_range h ↔
      ¬(h.accept_ranges = some ("none".toList) ∧ h.content_range = none)) ∧
      choose_segments_count segments cfg false = 1 := by
  constructor
  · obtain ⟨ar, cr, cl⟩ := h
    cases ar with
    | none => simp [supports_range, spec_supports_range]
    | some v =>
      by_cases hv : v = "none".toList
      · subst hv
        cases cr <;> simp [supports_range, spec_supports_range]
      · cases cr <;> simp [supports_range, spec_supports_range, hv]
  · rfl

/-- C5 (witness): the amended theorem at headers with no range headers. -/
theorem c5_presence_only_witness :
    choose_segments_count (some 8) 16 false = 1 :=
  (c5_presence_only ⟨none, none, none⟩ (some 8) 16).2

/-- C6 (counterexample): with `Content-Range: bytes 0-1/500` and
`Content-Length: 100` both present, the extracted size is 500 — the
Content-Range value wins, not Content-Length as the claim states. -/
theorem c6_counterexample :
    extract_file_size
        ⟨none, some ("bytes 0-1/500".toList), some ("100".toList)⟩
        = some 500 ∧
      pyInt ("100".toList) = some 100 ∧ (500 : Int) ≠ 100 := by decide

/-- C6 (amended): the size is derived by trying `Content-Range` FIRST —
parsing Z from `bytes X-Y/Z`, else Y from `bytes X-Y` — and only then
`Content-Length`; when both headers are present with conflicting parseable
values, the Content-Range value is the one returned. -/
theorem c6_content_range_first (h : Headers) :
    (h.content_range = none → extract_file_size h = contentLengthSize h) ∧
    (∀ cr z, h.content_range = some cr →
      pyInt ((splitOnChar '/' cr).getLastD []) = some z →
      extract_file_size h = some z) ∧
    (∀ cr y, h.content_range = some cr →
      pyInt ((splitOnChar '/' cr).getLastD []) = none →
      pyInt ((splitOnChar '-' cr).getLastD []) = some y →
      extract_file_size h = some y) ∧
    (∀ cr, h.content_range = some cr →
      pyInt ((splitOnChar '/' cr).getLastD []) = none →
      pyInt ((splitOnChar '-' cr).getLastD []) = none →
      extract_file_size h = contentLengthSize h) := by
  refine ⟨fun hcr => ?_, fun cr z hcr hz => ?_,
    fun cr y hcr hz hy => ?_, fun cr hcr hz hy => ?_⟩
  · simp only [extract_file_size, hcr]
  · simp only [extract_file_size, hcr, hz]
  · simp only [extract_file_size, hcr, hz, hy]
  · simp only [extract_file_size, hcr, hz, hy]

/-- C6 (witness): the amended theorem's Content-Range branch at
`bytes 0-1/500`. -/
theorem c6_content_range_first_witness :
    extract_file_size ⟨none, some ("bytes 0-1/500".toList), none⟩
      = some 500 :=
  (c6_content_range_first ⟨none, some ("bytes 0-1/500".toList), none⟩).2.1
    ("bytes 0-1/500".toList) 500 rfl (by decide)

/-- C7 (counterexample): resume enabled, the output file absent but a
state file present — the claim demands that both files be deleted, yet the
code skips the whole block: nothing is read and nothing is deleted. -/
theorem c7_counterexample :
    resume_decision true false true (some ⟨some ['u'], some 7, [0], []⟩)
        ['u'] 7 = ResumeAction.skip ∧
      ResumeAction.skip ≠ ResumeAction.deleteBoth := by decide

/-- C7 (amended): with resume enabled the coordinator restores
`completed` and `partial` exactly when the output file exists, the state
file exists, and the state's uri and total_size match; both files are
deleted only when the output file AND the state file exist but the state
is unreadable or mismatched — a state file without an output file is left
in place and the download starts fresh; and every spawned task skips
completed ids and carries the stored progress offset as its
resume_offset. -/
theorem c7_resume_conditions (resume outputExists stateExists : Bool)
    (readResult : Option StateData) (uri : List Char) (total_size : Nat) :
    ((∃ c p, resume_decision resume outputExists stateExists readResult uri
        total_size = ResumeAction.restore c p) ↔
      (resume = true ∧ outputExists = true ∧ stateExists = true ∧
        ∃ st, readResult = some st ∧ st.uri = some uri ∧
          st.total_size = some total_size)) ∧
    (resume_decision resume outputExists stateExists readResult uri
        total_size = ResumeAction.deleteBoth →
      resume = true ∧ outputExists = true ∧ stateExists = true) ∧
    (outputExists = false →
      resume_decision resume outputExists stateExists readResult uri
        total_size = ResumeAction.skip) ∧
    (∀ segs c p i r ro, (i, r, ro) ∈ plan_tasks segs c p →
      c.contains i = false ∧ ro = resume_offset_for p i) := by
  refine ⟨?_, ?_, ?_, ?_⟩
  · cases resume <;> cases outputExists <;> cases stateExists <;>
      simp [resume_decision]
    cases readResult with
    | none => simp
    | some st =>
      by_cases hcond : st.uri = some uri ∧ st.total_size = some total_size
      · simp only [if_pos hcond]
        constructor
        · intro _; exact ⟨st, rfl, hcond.1, hcond.2⟩
        · intro _; exact ⟨st.completed_segments, st.segment_progress, rfl⟩
      · simp only [if_neg hcond]
        constructor
        · rintro ⟨c, p, hcp⟩; cases hcp
        · rintro ⟨st', hst', h1, h2⟩
          cases hst'
          exact absurd ⟨h1, h2⟩ hcond
  · cases resume <;> cases outputExists <;> cases stateExists <;>
      simp [resume_decision]
  · intro hoe
    subst hoe
    cases resume <;> cases stateExists <;> simp [resume_decision]
  · intro segs c p i r ro hmem
    simp only [plan_tasks, List.mem_map, List.mem_filter,
      Bool.not_eq_true'] at hmem
    obtain ⟨q, ⟨hq, hqc⟩, heq⟩ := hmem
    cases heq
    exact ⟨hqc, rfl⟩

/-- C7 (witness): the amended theorem's restore direction at matching uri
and size. -/
theorem c7_resume_conditions_witness :
    ∃ c p, resume_decision true true true
        (some ⟨some ['u'], some 7, [0], [(1, 2)]⟩) ['u'] 7
      = ResumeAction.restore c p :=
  (c7_resume_conditions true true true
      (some ⟨some ['u'], some 7, [0], [(1, 2)]⟩) ['u'] 7).1.mpr
    ⟨rfl, rfl, rfl, ⟨some ['u'], some 7, [0], [(1, 2)]⟩, rfl, rfl, rfl⟩

/-- C8 (counterexample): the output file exists with length 5, total_size
is 10 and no state file exists — the claim demands delete-and-recreate at
10 bytes, yet the code leaves the 5-byte file untouched. -/
theorem c8_counterexample :
    setup_file true true false none ['u'] 5 10 = SetupAction.kept 5 ∧
      SetupAction.kept 5 ≠ SetupAction.created 10 ∧ (5 : Nat) ≠ 10 := by
  decide

/-- C8 (amended): when no state file exists, an already-existing output
file is left untouched whatever its length; the coordinator creates a file
pre-allocated at exactly `total_size` bytes only when the output file does
not exist. -/
theorem c8_no_state_keeps_file (resume outputExists : Bool)
    (readResult : Option StateData) (uri : List Char)
    (oldLength total_size : Nat) :
    setup_file resume outputExists false readResult uri oldLength total_size
      = if outputExists = true then SetupAction.kept oldLength
        else SetupAction.created total_size := by
  cases resume <;> cases outputExists <;>
    simp [setup_file, resume_decision]

/-- C8 (witness): the amended theorem at an existing 5-byte file with
total_size 10. -/
theorem c8_no_state_keeps_file_witness :
    setup_file true true false none ['u'] 5 10 = SetupAction.kept 5 :=
  c8_no_state_keeps_file true true none ['u'] 5 10

/-- C9: throughout every download run the invariant
`completed ∩ partial.keys() = ∅` holds on the coordinator's state: a
fetcher success for id adds the id to the completed set and removes it
from the segment_progress map, a failure leaves the state unchanged, so
from any state satisfying the invariant (in particular the fresh state)
every sequence of fetcher outcomes preserves it, and no id is ever in
both. -/
theorem c9_completed_progress_disjoint (st : RunState)
    (evs : List FetchEvent) (h : disjointInv st) :
    disjointInv (run_events st evs) ∧
      disjointInv (⟨∅, []⟩ : RunState) ∧
      ∀ i, i ∈ (on_success i st).completed_segments ∧
        i ∉ progressKeys (on_success i st) := by
  refine ⟨run_events_disjoint st evs h, by intro i hi; simp at hi,
    fun i => ⟨Finset.mem_insert_self i _, ?_⟩⟩
  intro hmem
  simp only [on_success, progressKeys, List.mem_map, List.mem_filter,
    bne_iff_ne, ne_eq] at hmem
  obtain ⟨p, ⟨hp, hpne⟩, hpi⟩ := hmem
  exact hpne hpi

/-- C9 (witness): the invariant theorem run at a concrete resumed state
with segment 1 succeeding. -/
theorem c9_completed_progress_disjoint_witness :
    disjointInv (run_events ⟨{0}, [(1, 5)]⟩ [FetchEvent.success 1]) :=
  (c9_completed_progress_disjoint ⟨{0}, [(1, 5)]⟩ [FetchEvent.success 1]
    (by decide)).1

/-- C10: saving the state never raises to its caller — for every possible
outcome of the underlying file write, `_save_state` propagates
`Except.ok ()`, and a warning is logged exactly when the write failed. -/
theorem c10_save_state_never_raises (uri : List Char) (total_size : Nat)
    (st : RunState) (now : Nat)
    (write : StateRecord → Except (List Char) Unit) :
    (save_state uri total_size st now write).1 = Except.ok () ∧
      ((save_state uri total_size st now write).2 = none ↔
        write ⟨uri, total_size, st.completed_segments,
          st.segment_progress, now⟩ = Except.ok ()) := by
  unfold save_state
  cases hw : write ⟨uri, total_size, st.completed_segments,
      st.segment_progress, now⟩ with
  | ok u => cases u; simp [hw]
  | error e => simp [hw]

/-- C10 (witness): a failing write still yields `Except.ok ()` to the
caller. -/
theorem c10_save_state_never_raises_witness :
    (save_state ['u'] 5 ⟨∅, []⟩ 0 (fun _ => Except.error ['x'])).1
      = Except.ok () :=
  (c10_save_state_never_raises ['u'] 5 ⟨∅, []⟩ 0
    (fun _ => Except.error ['x'])).1

end PyDownloader
